import Mathlib

/-!
VPMU character-device driver (`device_driver/device_file.c`)

A shallow embedding of the driver's word transfer engine, its file handlers
(`read`, `write`, `open`, `release`) and its registration code, followed by
theorems about them.

Conventions of the embedding:

* C integers are `Nat` (unsigned) or `Int` (signed); every conversion between
  C types is an explicit reduction modulo `2 ^ width`.
* The result of a kernel primitive the driver calls (`mutex_lock_killable`,
  `copy_to_user`, `kzalloc`, `cdev_add`, ...) is an explicit argument of the
  function that calls it.
* `#ifdef DRY_RUN` is the boolean argument `dry_run`.
-/

namespace VpmuDriver

/-! ## C integer types -/

/-- The two data models of a Linux kernel: `ilp32` (`long`, pointers, `size_t`
and `uintptr_t` are 32 bits wide) and `lp64` (they are 64 bits wide). In both
`int` has 32 bits and `loff_t` (`long long`) has 64 bits. -/
inductive Abi where
  | ilp32
  | lp64
deriving DecidableEq

/-- The value of `sizeof(uintptr_t)`, in bytes. -/
def Abi.wordBytes : Abi → Nat
  | .ilp32 => 4
  | .lp64 => 8

/-- The modulus of `unsigned long`, `size_t` and `uintptr_t`. -/
def Abi.longMod (abi : Abi) : Nat := 2 ^ (8 * abi.wordBytes)

/-- Conversion of an integer to the unsigned type of modulus `m`. -/
def toUnsigned (m : Nat) (x : Int) : Nat := (x % (m : Int)).toNat

/-- Conversion of an integer to the signed (two's complement) type of modulus `m`. -/
def toSigned (m : Nat) (x : Int) : Int :=
  if 2 * (x % (m : Int)) < (m : Int) then x % (m : Int) else x % (m : Int) - (m : Int)

/-- Conversion to `int`. -/
def toInt32 (x : Int) : Int := toSigned (2 ^ 32) x

/-- Conversion to `ssize_t` (`long`). -/
def toSsize (abi : Abi) (x : Int) : Int := toSigned abi.longMod x

def EINTR : Int := 4
def ENOMEM : Int := 12
def EFAULT : Int := 14
def ENODEV : Int := 19
def EINVAL : Int := 22

/-- The C expression `*possition >= dev->buffer_size` (`loff_t` against
`unsigned long`). On `lp64` both operands are converted to a 64-bit unsigned
type, on `ilp32` both are converted to `long long`. -/
def pos_ge_size (abi : Abi) (possition : Int) (buffer_size : Nat) : Bool :=
  match abi with
  | .lp64 => decide (buffer_size ≤ toUnsigned (2 ^ 64) possition)
  | .ilp32 => decide ((buffer_size : Int) ≤ possition)

/-- The C expression `*possition + count > dev->buffer_size`. On `lp64` the sum
is computed in a 64-bit unsigned type (it wraps modulo `2 ^ 64`), on `ilp32` in
`long long`. -/
def pos_plus_count_gt_size (abi : Abi) (possition : Int) (count buffer_size : Nat) : Bool :=
  match abi with
  | .lp64 => decide (buffer_size < (toUnsigned (2 ^ 64) possition + count) % 2 ^ 64)
  | .ilp32 => decide ((buffer_size : Int) < toSigned (2 ^ 64) (possition + (count : Int)))

/-- The C expression `dev->buffer_size - *possition`, converted to `size_t` by
the assignment to `count`. -/
def size_minus_pos (abi : Abi) (buffer_size : Nat) (possition : Int) : Nat :=
  match abi with
  | .lp64 => toUnsigned (2 ^ 64) ((buffer_size : Int) - (toUnsigned (2 ^ 64) possition : Int))
  | .ilp32 => toUnsigned (2 ^ 32) (toSigned (2 ^ 64) ((buffer_size : Int) - possition))

/-- The two statements
`if (*possition + count > dev->buffer_size) count = dev->buffer_size - *possition;`
as a function from the requested `count` to the value of `count` after them. -/
def clamp_count (abi : Abi) (possition : Int) (count buffer_size : Nat) : Nat :=
  if pos_plus_count_gt_size abi possition count buffer_size then
    size_minus_pos abi buffer_size possition
  else count

/-- The C statement `*possition += count`. -/
def pos_advance (abi : Abi) (possition : Int) (count : Nat) : Int :=
  match abi with
  | .lp64 => toSigned (2 ^ 64) (((toUnsigned (2 ^ 64) possition + count) % 2 ^ 64 : Nat) : Int)
  | .ilp32 => toSigned (2 ^ 64) (possition + (count : Int))

/-! ## Memory -/

/-- Kernel memory as seen from the pointer `dev->data`: the byte at each signed
byte offset from it. The offsets `0 .. buffer_size - 1` are the shadow buffer;
every other offset is memory outside the allocation. -/
abbrev Mem := Int → Nat

/-- The hardware window: the word held at each address. -/
abbrev Hw := Nat → Nat

/-- Modelled from the spec: the macro `VPMU_IO_READ(addr, val)` of the missing
header `vpmu-device.h`; a word-granular read of the hardware window at the
address the caller passes, the word read being assigned to `val`. -/
def VPMU_IO_READ (hw : Hw) (addr : Nat) : Nat := hw addr

/-- Modelled from the spec: the macro `VPMU_IO_WRITE(addr, val)` of the missing
header `vpmu-device.h`; a word-granular write of `val` to the hardware window
at the address the caller passes. -/
def VPMU_IO_WRITE (hw : Hw) (addr val : Nat) : Hw :=
  fun a => if a = addr then val else hw a

/-- One access to the hardware window. -/
inductive Access where
  | read (addr : Nat)
  | write (addr val : Nat)
deriving DecidableEq

/-! ## Word transfer engine -/

/-- The variables the two transfer loops work on: the hardware window, the
array `buffer` (indexed in words, as `buffer[i]` is), and the hardware accesses
issued so far, in order. -/
structure XferState where
  hw : Hw
  buffer : Nat → Nat
  trace : List Access

/-- Body of the loop of `copy_from_vpmu` for the index `i`:
`VPMU_IO_READ(addr_base + i, val); buffer[i] = val;`. The sum `addr_base + i`
is computed in `uintptr_t`. -/
def copy_from_vpmu_body (abi : Abi) (addr_base i : Nat) (s : XferState) : XferState :=
  let addr := (addr_base + i) % abi.longMod
  let val := VPMU_IO_READ s.hw addr
  { hw := s.hw
    buffer := fun j => if j = i then val else s.buffer j
    trace := s.trace ++ [Access.read addr] }

/-- The loop `for (i = 0; i < k; i++)` of `copy_from_vpmu`: the body for
`i = 0, 1, ..., k - 1`, in this order. -/
def copy_from_vpmu_loop (abi : Abi) (addr_base : Nat) : Nat → XferState → XferState
  | 0, s => s
  | k + 1, s => copy_from_vpmu_body abi addr_base k (copy_from_vpmu_loop abi addr_base k s)

/-- The function `copy_from_vpmu(buffer, addr_base, count)`. -/
def copy_from_vpmu (abi : Abi) (addr_base count : Nat) (s : XferState) : XferState :=
  let count_in_words := count / abi.wordBytes
  copy_from_vpmu_loop abi addr_base count_in_words s

/-- Body of the loop of `copy_to_vpmu` for the index `i`:
`VPMU_IO_WRITE(addr_base + i, buffer[i]);`. -/
def copy_to_vpmu_body (abi : Abi) (addr_base i : Nat) (s : XferState) : XferState :=
  let addr := (addr_base + i) % abi.longMod
  { hw := VPMU_IO_WRITE s.hw addr (s.buffer i)
    buffer := s.buffer
    trace := s.trace ++ [Access.write addr (s.buffer i)] }

/-- The loop `for (i = 0; i < k; i++)` of `copy_to_vpmu`. -/
def copy_to_vpmu_loop (abi : Abi) (addr_base : Nat) : Nat → XferState → XferState
  | 0, s => s
  | k + 1, s => copy_to_vpmu_body abi addr_base k (copy_to_vpmu_loop abi addr_base k s)

/-- The function `copy_to_vpmu(addr_base, buffer, count)`. -/
def copy_to_vpmu (abi : Abi) (addr_base count : Nat) (s : XferState) : XferState :=
  let count_in_words := count / abi.wordBytes
  copy_to_vpmu_loop abi addr_base count_in_words s

/-- The address at which word number `i` of a region of words that starts at
the address `base` lies: `i` words, that is `i * sizeof(uintptr_t)` bytes,
after `base` (as `&((uintptr_t *)base)[i]` is). -/
def word_offset (abi : Abi) (base i : Nat) : Nat :=
  (base + i * abi.wordBytes) % abi.longMod

/-! ## Device state -/

/-- An allocation returned by `kzalloc`: its address and the memory seen from it. -/
structure Buffer where
  addr : Nat
  bytes : Mem

/-- The C type `struct vpmu_dev`. `data` is `none` for `NULL`; `vpmu_mutex`
tells whether `mutex_init` has run on the lock; `cdev` is the minor number the
character device was added with by `cdev_add`, `none` when it is not added. -/
structure vpmu_dev where
  data : Option Buffer
  buffer_size : Nat
  vpmu_mutex : Bool
  cdev : Option Nat

/-- The word `((uintptr_t *)(dev->data + off))[i]`, assembled from its bytes,
least significant byte first (the byte order of the x86 and ARM kernels). -/
def load_word (abi : Abi) (bytes : Mem) (off : Int) (i : Nat) : Nat :=
  (List.range abi.wordBytes).foldl
    (fun acc k => acc + bytes (off + ((i * abi.wordBytes + k : Nat) : Int)) * 256 ^ k) 0

/-- The memory after the words `0 .. n - 1` of `(uintptr_t *)(dev->data + off)`
have been assigned the values `words 0 .. words (n - 1)`. -/
def store_words (abi : Abi) (bytes : Mem) (off : Int) (n : Nat) (words : Nat → Nat) : Mem :=
  fun j =>
    if off ≤ j ∧ j < off + ((n * abi.wordBytes : Nat) : Int) then
      (words ((j - off).toNat / abi.wordBytes) / 256 ^ ((j - off).toNat % abi.wordBytes)) % 256
    else bytes j

/-- Byte offsets from `dev->data` of the words `0 .. n - 1` of
`(uintptr_t *)(dev->data + off)`. -/
def word_offsets (abi : Abi) (off : Int) (n : Nat) : List Int :=
  (List.range n).map (fun i => off + ((i * abi.wordBytes : Nat) : Int))

/-! ## File handlers -/

/-- What a call of `device_file_read` or `device_file_write` leaves behind:
the value returned, the cursor `*possition`, the device, the hardware window,
and a record of the transfers made: the buffer offset and byte count passed to
`copy_to_user` / `copy_from_user` (`none` when it is not called), the bytes
stored into the user buffer, the hardware accesses, and the byte offsets of the
buffer words the word transfer engine accessed. -/
structure IoResult where
  ret : Int
  possition : Int
  dev : vpmu_dev
  hw : Hw
  user_copy : Option (Int × Nat)
  delivered : List Nat
  hw_trace : List Access
  engine_words : List Int

/-- The handler `device_file_read`. `vpmu_base` is `(uintptr_t)vpmu_base`;
`mutex_lock_killable` and `copy_to_user` are the values these two kernel calls
return (0 when the lock is acquired; the number of bytes that could not be
copied). `retval` is an `int`, so the count returned is converted to `int` and
then to `ssize_t`. The result is `none` when the handler dereferences
`dev->data` while it is `NULL`. -/
def device_file_read (abi : Abi) (dry_run : Bool) (vpmu_base : Nat) (hw : Hw)
    (mutex_lock_killable : Int) (copy_to_user : Nat)
    (dev : vpmu_dev) (count : Nat) (possition : Int) : Option IoResult :=
  if mutex_lock_killable ≠ 0 then
    some { ret := -EINTR, possition := possition, dev := dev, hw := hw, user_copy := none,
           delivered := [], hw_trace := [], engine_words := [] }
  else if pos_ge_size abi possition dev.buffer_size then
    some { ret := 0, possition := possition, dev := dev, hw := hw, user_copy := none,
           delivered := [], hw_trace := [], engine_words := [] }
  else
    let count := clamp_count abi possition count dev.buffer_size
    match dev.data with
    | none => none
    | some buf =>
      let s0 : XferState :=
        { hw := hw, buffer := load_word abi buf.bytes possition, trace := [] }
      let s := if dry_run then s0 else copy_from_vpmu abi vpmu_base count s0
      let bytes := if dry_run then buf.bytes
        else store_words abi buf.bytes possition (count / abi.wordBytes) s.buffer
      let words := if dry_run then [] else word_offsets abi possition (count / abi.wordBytes)
      let dev1 : vpmu_dev := { dev with data := some { addr := buf.addr, bytes := bytes } }
      if copy_to_user ≠ 0 then
        some { ret := -EFAULT, possition := possition, dev := dev1, hw := s.hw,
               user_copy := some (possition, count),
               delivered := (List.range (count - copy_to_user)).map
                 (fun (k : Nat) => bytes (possition + (k : Int))),
               hw_trace := s.trace, engine_words := words }
      else
        some { ret := toSsize abi (toInt32 (count : Int)),
               possition := pos_advance abi possition count, dev := dev1, hw := s.hw,
               user_copy := some (possition, count),
               delivered := (List.range count).map (fun (k : Nat) => bytes (possition + (k : Int))),
               hw_trace := s.trace, engine_words := words }

/-- The allocation after `copy_from_user(dev->data + possition, user_buffer, count)`
has returned `left`: the bytes `possition .. possition + count - 1` hold the
`count - left` bytes copied from the user, followed by `left` zero bytes. -/
def written_buffer (buf : Buffer) (possition : Int) (count left : Nat)
    (user_buffer : Nat → Nat) : Buffer :=
  { addr := buf.addr
    bytes := fun j =>
      if possition ≤ j ∧ j < possition + (count : Int) then
        (if (j - possition).toNat < count - left then user_buffer (j - possition).toNat else 0)
      else buf.bytes j }

/-- The handler `device_file_write`. `user_buffer k` is byte `k` of the user's
source; `copy_from_user` is the value that kernel call returns (the number of
bytes it could not copy, the uncopied tail of the destination being padded with
zero bytes). Every path that holds the lock ends in `return count`. -/
def device_file_write (abi : Abi) (dry_run : Bool) (vpmu_base : Nat) (hw : Hw)
    (mutex_lock_killable : Int) (copy_from_user : Nat) (user_buffer : Nat → Nat)
    (dev : vpmu_dev) (count : Nat) (possition : Int) : Option IoResult :=
  if mutex_lock_killable ≠ 0 then
    some { ret := -EINTR, possition := possition, dev := dev, hw := hw, user_copy := none,
           delivered := [], hw_trace := [], engine_words := [] }
  else if pos_ge_size abi possition dev.buffer_size then
    some { ret := toSsize abi (count : Int), possition := possition, dev := dev, hw := hw,
           user_copy := none, delivered := [], hw_trace := [], engine_words := [] }
  else
    let count := clamp_count abi possition count dev.buffer_size
    match dev.data with
    | none => none
    | some buf =>
      let buf1 := written_buffer buf possition count copy_from_user user_buffer
      let bytes := buf1.bytes
      let dev1 : vpmu_dev := { dev with data := some buf1 }
      if copy_from_user ≠ 0 then
        some { ret := toSsize abi (count : Int), possition := possition, dev := dev1, hw := hw,
               user_copy := some (possition, count), delivered := [], hw_trace := [],
               engine_words := [] }
      else
        let possition1 := pos_advance abi possition count
        let s0 : XferState :=
          { hw := hw, buffer := load_word abi bytes possition1, trace := [] }
        let s := if dry_run then s0 else copy_to_vpmu abi vpmu_base count s0
        let words := if dry_run then []
          else word_offsets abi possition1 (count / abi.wordBytes)
        some { ret := toSsize abi (count : Int), possition := possition1, dev := dev1, hw := s.hw,
               user_copy := some (possition, count), delivered := [], hw_trace := s.trace,
               engine_words := words }

/-! ## Open and release -/

/-- A pointer to a `struct cdev`: the field `cdev` of `vpmu_devices[i]`, or a
character device that is no field of the array. -/
inductive CdevPtr where
  | vpmu (i : Nat)
  | other (id : Nat)
deriving DecidableEq

/-- A pointer returned by `class_create` or `device_create`: `NULL`, a valid
object, or `ERR_PTR(e)`. -/
inductive KPtr where
  | null
  | valid
  | err (e : Int)
deriving DecidableEq

/-- The part of `struct inode` the driver reads: `imajor(inode)`,
`iminor(inode)` (both `unsigned int`) and `inode->i_cdev`. -/
structure Inode where
  imajor : Nat
  iminor : Nat
  i_cdev : CdevPtr

/-- The global variables of the driver. `vpmu_devices` is `none` for `NULL`,
else the array. -/
structure Globals where
  vpmu_major_number : Int
  vpmu_ndevices : Int
  vpmu_class : KPtr
  vpmu_devices : Option (List vpmu_dev)

/-- What a call of `device_file_open` leaves behind: the value returned, the
field `file_ptr->private_data` (`some i` for `&vpmu_devices[i]`, `none` for
`NULL`) and the globals. -/
structure OpenResult where
  ret : Int
  private_data : Option Nat
  g : Globals

/-- The call `kzalloc(size, GFP_KERNEL)`, given the allocation the allocator
hands out (`none` when it fails): the first `size` bytes are zeroed. -/
def kzalloc (size : Nat) (alloc : Option Buffer) : Option Buffer :=
  alloc.map (fun b =>
    { addr := b.addr, bytes := fun j => if 0 ≤ j ∧ j < (size : Int) then 0 else b.bytes j })

/-- The handler `device_file_open`. `private_data` is the value of
`file_ptr->private_data` on entry, `alloc` the allocation `kzalloc` would hand
out. The comparisons of the `unsigned int` values `mj`, `mn` with the `int`
globals convert the globals to `unsigned int`. The result is `none` when the
handler reads `dev->data` through a pointer outside the array. -/
def device_file_open (g : Globals) (alloc : Option Buffer) (inode : Inode)
    (private_data : Option Nat) : Option OpenResult :=
  let mj := inode.imajor
  let mn := inode.iminor
  if mj ≠ toUnsigned (2 ^ 32) g.vpmu_major_number ∨ (mn : Int) < 0
      ∨ toUnsigned (2 ^ 32) g.vpmu_ndevices ≤ mn then
    some { ret := -ENODEV, private_data := private_data, g := g }
  else if inode.i_cdev ≠ CdevPtr.vpmu mn then
    some { ret := -ENODEV, private_data := some mn, g := g }
  else
    match g.vpmu_devices with
    | none => none
    | some devs =>
      match devs[mn]? with
      | none => none
      | some dev =>
        match dev.data with
        | some _ => some { ret := 0, private_data := some mn, g := g }
        | none =>
          match kzalloc dev.buffer_size alloc with
          | none => some { ret := -ENOMEM, private_data := some mn, g := g }
          | some buf =>
            let devs1 := devs.set mn { dev with data := some buf }
            some { ret := 0, private_data := some mn, g := { g with vpmu_devices := some devs1 } }

/-- The device `file_ptr->private_data` points to, as the read and write
handlers fetch it. -/
def bound_device (g : Globals) (private_data : Option Nat) : Option vpmu_dev :=
  match g.vpmu_devices, private_data with
  | some devs, some i => devs[i]?
  | _, _ => none

/-- The handler `device_file_release`: the value returned, and the globals and
`file_ptr->private_data` after the call. -/
def device_file_release (g : Globals) (private_data : Option Nat) :
    Int × Globals × Option Nat :=
  (0, g, private_data)

/-! ## Registration -/

/-- The function `vpmu_construct_device(dev, minor, class)`: the value returned
and `*dev` after the call. `iomem_size` is the constant
`VPMU_DEVICE_IOMEM_SIZE` of the missing header `vpmu-device.h` (as stored in
the `unsigned long` field); `cdev_add` is the value that call returns and
`device_create` the pointer that call returns. -/
def vpmu_construct_device (iomem_size : Nat) (cdev_add : Int) (device_create : KPtr)
    (dev : vpmu_dev) (minor : Nat) : Int × vpmu_dev :=
  let dev1 : vpmu_dev :=
    { dev with data := none, buffer_size := iomem_size, vpmu_mutex := true, cdev := none }
  if cdev_add ≠ 0 then (cdev_add, dev1)
  else
    let dev2 : vpmu_dev := { dev1 with cdev := some minor }
    match device_create with
    | KPtr.err e => (toInt32 e, { dev2 with cdev := none })
    | _ => (0, dev2)

/-- A `struct vpmu_dev` as `kzalloc` delivers it: all bytes zero. -/
def zero_dev : vpmu_dev :=
  { data := none, buffer_size := 0, vpmu_mutex := false, cdev := none }

/-- A call the registration code makes to build or to tear down a device. -/
inductive RegEvent where
  | construct (index minor : Nat)
  | destroy (index minor : Nat)
  | kfree_devices
  | class_destroy
  | unregister_chrdev_region
deriving DecidableEq

/-- The loop `for (i = 0; i < vpmu_ndevices; ++i)` of `register_device`, with
`k` iterations left to run from the index `i`. Every iteration calls
`vpmu_construct_device(&vpmu_devices[0], 0, vpmu_class)`. Returns `err`, the
value of `i` at the exit, the array and the calls made. -/
def register_loop (iomem_size : Nat) (cdev_add : Nat → Int) (device_create : Nat → KPtr) :
    Nat → Nat → List vpmu_dev → List RegEvent → Int × Nat × List vpmu_dev × List RegEvent
  | 0, i, devs, log => (0, i, devs, log)
  | k + 1, i, devs, log =>
    let r := vpmu_construct_device iomem_size (cdev_add i) (device_create i)
      (devs.headD zero_dev) 0
    let devs1 := devs.set 0 r.2
    let log1 := log ++ [RegEvent.construct 0 0]
    if r.1 ≠ 0 then (r.1, i, devs1, log1)
    else register_loop iomem_size cdev_add device_create k (i + 1) devs1 log1

/-- The function `vpmu_destroy_device(dev, minor, class)` on `*dev`: the
character device is deleted and the lock destroyed; `kfree(dev->data)` leaves
the pointer field as it is. -/
def vpmu_destroy_device (dev : vpmu_dev) : vpmu_dev :=
  { dev with cdev := none, vpmu_mutex := false }

/-- The loop of `vpmu_cleanup_module`, destroying the devices `i .. i + k - 1`. -/
def cleanup_loop : Nat → Nat → List vpmu_dev → List RegEvent → List vpmu_dev × List RegEvent
  | 0, _, devs, log => (devs, log)
  | k + 1, i, devs, log =>
    match devs[i]? with
    | none => (devs, log)
    | some d => cleanup_loop k (i + 1) (devs.set i (vpmu_destroy_device d))
        (log ++ [RegEvent.destroy i i])

/-- The function `vpmu_cleanup_module(devices_to_destroy)`: the array (`none`
when it was `NULL`) and the calls made. -/
def vpmu_cleanup_module (g : Globals) (devices_to_destroy : Int) :
    Option (List vpmu_dev) × List RegEvent :=
  let r : Option (List vpmu_dev) × List RegEvent :=
    match g.vpmu_devices with
    | none => (none, [])
    | some devs =>
      let c := cleanup_loop devices_to_destroy.toNat 0 devs []
      (some c.1, c.2 ++ [RegEvent.kfree_devices])
  let log1 := if g.vpmu_class ≠ KPtr.null then r.2 ++ [RegEvent.class_destroy] else r.2
  let log2 := if g.vpmu_major_number ≠ 0 then log1 ++ [RegEvent.unregister_chrdev_region]
    else log1
  (r.1, log2)

/-- What a call of `register_device` leaves behind. -/
structure RegResult where
  ret : Int
  g : Globals
  log : List RegEvent

/-- The function `register_device`. `alloc_chrdev_region` is the value that
call returns and `major` the major number it assigns; `class_create` is the
pointer that call returns; `kzalloc_devices` tells whether the allocation of
the array succeeds; `cdev_add i` and `device_create i` are the results of these
calls in iteration `i` of the construction loop. -/
def register_device (iomem_size : Nat) (g : Globals) (alloc_chrdev_region : Int) (major : Int)
    (class_create : KPtr) (kzalloc_devices : Bool)
    (cdev_add : Nat → Int) (device_create : Nat → KPtr) : RegResult :=
  if g.vpmu_ndevices ≤ 0 then { ret := -EINVAL, g := g, log := [] }
  else if alloc_chrdev_region < 0 then { ret := alloc_chrdev_region, g := g, log := [] }
  else
    let g1 : Globals := { g with vpmu_major_number := major, vpmu_class := class_create }
    match class_create with
    | KPtr.err _ =>
      let c := vpmu_cleanup_module g1 0
      { ret := 0, g := { g1 with vpmu_devices := c.1 }, log := c.2 }
    | _ =>
      if kzalloc_devices = false then
        let g2 : Globals := { g1 with vpmu_devices := none }
        let c := vpmu_cleanup_module g2 0
        { ret := 0, g := { g2 with vpmu_devices := c.1 }, log := c.2 }
      else
        let devs := List.replicate g.vpmu_ndevices.toNat zero_dev
        let l := register_loop iomem_size cdev_add device_create g.vpmu_ndevices.toNat 0 devs []
        if l.1 ≠ 0 then
          let g2 : Globals := { g1 with vpmu_devices := some l.2.2.1 }
          let c := vpmu_cleanup_module g2 (l.2.1 : Int)
          { ret := 0, g := { g2 with vpmu_devices := c.1 }, log := l.2.2.2 ++ c.2 }
        else
          { ret := 0, g := { g1 with vpmu_devices := some l.2.2.1 }, log := l.2.2.2 }

/-! ## Concrete inputs -/

/-- An allocation at address 1 in which every byte, inside and after the
buffer, holds 7. -/
def sample_buf : Buffer := { addr := 1, bytes := fun _ => 7 }

/-- An opened device with a buffer of 4096 bytes; every byte of the memory seen
from `dev->data`, inside and after the buffer, holds 7. -/
def sample_dev : vpmu_dev :=
  { data := some sample_buf, buffer_size := 4096, vpmu_mutex := true, cdev := some 0 }

/-- A hardware window that holds, at each address, the address itself. -/
def sample_hw : Hw := fun a => a

/-- A user buffer whose byte `k` is `k % 256`. -/
def sample_user : Nat → Nat := fun k => k % 256

/-- Globals of a loaded driver with major number 240 and one device, the
opened `sample_dev`. -/
def sample_globals : Globals :=
  { vpmu_major_number := 240, vpmu_ndevices := 1, vpmu_class := KPtr.valid,
    vpmu_devices := some [sample_dev] }

/-- The inode of the device node of minor 0, bound to the character device of
`vpmu_devices[0]`. -/
def sample_inode : Inode := { imajor := 240, iminor := 0, i_cdev := CdevPtr.vpmu 0 }

/-- An inode with the driver's major number and minor 0 whose `i_cdev` is not
the character device of `vpmu_devices[0]`. -/
def foreign_inode : Inode := { imajor := 240, iminor := 0, i_cdev := CdevPtr.other 7 }

/-- An inode with the driver's major number and minor 5. -/
def minor5_inode : Inode := { imajor := 240, iminor := 5, i_cdev := CdevPtr.vpmu 5 }

/-- Globals of the module before registration, with the parameter
`vpmu_ndevices` set to `n`. -/
def unregistered (n : Int) : Globals :=
  { vpmu_major_number := 0, vpmu_ndevices := n, vpmu_class := KPtr.null, vpmu_devices := none }

/-- The fields of a device that can be compared by evaluation: `buffer_size`,
whether the lock is initialised, the minor of the added character device and
whether the buffer is allocated. -/
def dev_summary (d : vpmu_dev) : Nat × Bool × Option Nat × Bool :=
  (d.buffer_size, d.vpmu_mutex, d.cdev, d.data.isSome)

/-- The summaries of the devices of the array (`[]` when the array is `NULL`). -/
def devices_summary (g : Globals) : List (Nat × Bool × Option Nat × Bool) :=
  match g.vpmu_devices with
  | none => []
  | some devs => devs.map dev_summary

/-- Registration of one device in which `class_create` fails with `-ENOMEM`. -/
def run_class_create_fails : RegResult :=
  register_device 4096 (unregistered 1) 0 240 (KPtr.err (-12)) true
    (fun _ => 0) (fun _ => KPtr.valid)

/-- Registration of one device in which the allocation of the array fails. -/
def run_array_alloc_fails : RegResult :=
  register_device 4096 (unregistered 1) 0 240 KPtr.valid false
    (fun _ => 0) (fun _ => KPtr.valid)

/-- Registration of one device in which `cdev_add` fails with `-EBUSY`. -/
def run_cdev_add_fails : RegResult :=
  register_device 4096 (unregistered 1) 0 240 KPtr.valid true
    (fun _ => -16) (fun _ => KPtr.valid)

/-- Registration of two devices in which every external call succeeds. -/
def run_two_devices : RegResult :=
  register_device 4096 (unregistered 2) 0 240 KPtr.valid true
    (fun _ => 0) (fun _ => KPtr.valid)

/-- A write of 16 bytes at cursor 4080 of `sample_dev` in hardware mode on
`lp64`: lock acquired, user copy succeeding, hardware base address 100. -/
def run_hw_write : Option IoResult :=
  device_file_write Abi.lp64 false 100 sample_hw 0 0 sample_user sample_dev 16 4080

/-- The call `copy_from_vpmu(buffer, 4096, 16)` on `lp64`, on a buffer of zero
words and the window `sample_hw`. -/
def run_copy_from : XferState :=
  copy_from_vpmu Abi.lp64 4096 16 { hw := sample_hw, buffer := fun _ => 0, trace := [] }

/-- The call `copy_to_vpmu(4096, buffer, 16)` on `lp64`, on a buffer whose word
`i` is `10 + i`. -/
def run_copy_to : XferState :=
  copy_to_vpmu Abi.lp64 4096 16 { hw := sample_hw, buffer := fun i => 10 + i, trace := [] }

end VpmuDriver

namespace VpmuDriver

/-! ## Integer conversions -/

theorem toUnsigned_of_range (m : Nat) (x : Int) (h0 : 0 ≤ x) (h1 : x < (m : Int)) :
    (toUnsigned m x : Int) = x := by
  unfold toUnsigned
  rw [Int.emod_eq_of_lt h0 h1]
  exact Int.toNat_of_nonneg h0

theorem toSigned_of_range (m : Nat) (x : Int) (h0 : 0 ≤ x) (h1 : 2 * x < (m : Int)) :
    toSigned m x = x := by
  unfold toSigned
  have hx : x % (m : Int) = x := Int.emod_eq_of_lt h0 (by omega)
  rw [hx, if_pos h1]

theorem pos_ge_size_of_le (abi : Abi) (possition : Int) (buffer_size : Nat)
    (hge : (buffer_size : Int) ≤ possition) (hrange : possition < 2 ^ 63) :
    pos_ge_size abi possition buffer_size = true := by
  cases abi
  · simpa [pos_ge_size] using hge
  · have h := toUnsigned_of_range (2 ^ 64) possition (by omega) (by norm_num; omega)
    simp only [pos_ge_size, decide_eq_true_eq]
    omega

theorem pos_ge_size_of_lt (abi : Abi) (possition : Int) (buffer_size : Nat)
    (h0 : 0 ≤ possition) (hlt : possition < (buffer_size : Int)) (hrange : possition < 2 ^ 63) :
    pos_ge_size abi possition buffer_size = false := by
  cases abi
  · simpa [pos_ge_size] using hlt
  · have h := toUnsigned_of_range (2 ^ 64) possition (by omega) (by norm_num; omega)
    simp only [pos_ge_size, decide_eq_false_iff_not]
    omega

theorem longMod_ilp32 : Abi.longMod Abi.ilp32 = 4294967296 := by
  simp [Abi.longMod, Abi.wordBytes]

theorem longMod_lp64 : Abi.longMod Abi.lp64 = 18446744073709551616 := by
  simp [Abi.longMod, Abi.wordBytes]

theorem clamp_count_eq_min (abi : Abi) (possition : Int) (count buffer_size : Nat)
    (h0 : 0 ≤ possition) (hlt : possition < (buffer_size : Int))
    (hS : buffer_size < abi.longMod) (hcount : count < abi.longMod)
    (hnowrap : possition + (count : Int) < 2 ^ 64) :
    clamp_count abi possition count buffer_size = min count (buffer_size - possition.toNat) := by
  cases abi
  · rw [longMod_ilp32] at hS hcount
    have h1 : toSigned (2 ^ 64) (possition + (count : Int)) = possition + (count : Int) :=
      toSigned_of_range _ _ (by omega) (by norm_num; omega)
    have h2 : toSigned (2 ^ 64) ((buffer_size : Int) - possition) = (buffer_size : Int) - possition :=
      toSigned_of_range _ _ (by omega) (by norm_num; omega)
    have h3 := toUnsigned_of_range (2 ^ 32) ((buffer_size : Int) - possition) (by omega)
      (by norm_num; omega)
    simp only [clamp_count, pos_plus_count_gt_size, size_minus_pos, h1, h2, decide_eq_true_eq]
    split <;> omega
  · rw [longMod_lp64] at hS hcount
    have h1 := toUnsigned_of_range (2 ^ 64) possition h0 (by norm_num; omega)
    have h3 := toUnsigned_of_range (2 ^ 64)
      ((buffer_size : Int) - (toUnsigned (2 ^ 64) possition : Int)) (by omega)
      (by norm_num; omega)
    simp only [clamp_count, pos_plus_count_gt_size, size_minus_pos, decide_eq_true_eq]
    have h4 : (toUnsigned (2 ^ 64) possition + count) % 2 ^ 64
        = toUnsigned (2 ^ 64) possition + count := Nat.mod_eq_of_lt (by omega)
    rw [h4]
    split <;> omega

theorem pos_advance_eq (abi : Abi) (possition : Int) (count : Nat)
    (h0 : 0 ≤ possition) (hsum : possition + (count : Int) < 2 ^ 63) :
    pos_advance abi possition count = possition + (count : Int) := by
  cases abi
  · exact toSigned_of_range _ _ (by omega) (by norm_num; omega)
  · have h1 := toUnsigned_of_range (2 ^ 64) possition h0 (by norm_num; omega)
    have h4 : (toUnsigned (2 ^ 64) possition + count) % 2 ^ 64
        = toUnsigned (2 ^ 64) possition + count := Nat.mod_eq_of_lt (by omega)
    simp only [pos_advance, h4]
    generalize toUnsigned (2 ^ 64) possition = u at h1
    rw [toSigned_of_range _ _ (by omega) (by norm_num; omega)]
    omega

theorem ret_of_count (abi : Abi) (count : Nat) (h : count < 2 ^ 31) :
    toSsize abi (toInt32 (count : Int)) = (count : Int) ∧ toSsize abi (count : Int) = (count : Int) := by
  have h1 : toInt32 (count : Int) = (count : Int) :=
    toSigned_of_range _ _ (by omega) (by norm_num; omega)
  have h2 : toSsize abi (count : Int) = (count : Int) := by
    cases abi
    · exact toSigned_of_range _ _ (by omega) (by rw [longMod_ilp32]; norm_num; omega)
    · exact toSigned_of_range _ _ (by omega) (by rw [longMod_lp64]; norm_num; omega)
  rw [h1]
  exact ⟨h2, h2⟩

/-! ## Read and write -/

theorem read_unfold (abi : Abi) (dry_run : Bool) (vpmu_base : Nat) (hw : Hw) (left : Nat)
    (dev : vpmu_dev) (buf : Buffer) (count c : Nat)
    (hdata : dev.data = some buf) (hc : c < dev.buffer_size) (hS : dev.buffer_size < abi.longMod)
    (hcount : count < abi.longMod) (hoff : c < 2 ^ 63) (hnowrap : c + count < 2 ^ 64) :
    ∃ r, device_file_read abi dry_run vpmu_base hw 0 left dev count (c : Int) = some r ∧
      r.user_copy = some ((c : Int), min count (dev.buffer_size - c)) ∧
      (left = 0 → r.ret = toSsize abi (toInt32 ((min count (dev.buffer_size - c) : Nat) : Int))) := by
  have hge := pos_ge_size_of_lt abi (c : Int) dev.buffer_size (by omega) (by omega) (by omega)
  have hcl := clamp_count_eq_min abi (c : Int) count dev.buffer_size (by omega) (by omega) hS hcount
    (by exact_mod_cast hnowrap)
  simp only [Int.toNat_ofNat] at hcl
  by_cases hl : left = 0
  · subst hl
    simp [device_file_read, hge, hdata, hcl]
  · simp [device_file_read, hge, hdata, hcl, hl]

theorem write_unfold (abi : Abi) (dry_run : Bool) (vpmu_base : Nat) (hw : Hw) (left : Nat)
    (user_buffer : Nat → Nat) (dev : vpmu_dev) (buf : Buffer) (count c : Nat)
    (hdata : dev.data = some buf) (hc : c < dev.buffer_size) (hS : dev.buffer_size < abi.longMod)
    (hcount : count < abi.longMod) (hoff : c < 2 ^ 63) (hnowrap : c + count < 2 ^ 64) :
    ∃ w, device_file_write abi dry_run vpmu_base hw 0 left user_buffer dev count (c : Int)
        = some w ∧
      w.user_copy = some ((c : Int), min count (dev.buffer_size - c)) ∧
      w.ret = toSsize abi ((min count (dev.buffer_size - c) : Nat) : Int) := by
  have hge := pos_ge_size_of_lt abi (c : Int) dev.buffer_size (by omega) (by omega) (by omega)
  have hcl := clamp_count_eq_min abi (c : Int) count dev.buffer_size (by omega) (by omega) hS hcount
    (by exact_mod_cast hnowrap)
  simp only [Int.toNat_ofNat] at hcl
  by_cases hl : left = 0
  · subst hl
    simp [device_file_write, hge, hdata, hcl]
  · simp [device_file_write, hge, hdata, hcl, hl]

/-- C4. A read that acquires the lock with the cursor at or past the end of the
buffer returns 0, calls neither `copy_to_user` nor the word transfer engine,
and leaves the cursor, the device (its buffer included) and the hardware
window as they were, whatever the requested count, in both build modes. -/
theorem read_at_end_of_buffer (abi : Abi) (dry_run : Bool) (vpmu_base : Nat) (hw : Hw)
    (copy_to_user : Nat) (dev : vpmu_dev) (count : Nat) (possition : Int)
    (hge : (dev.buffer_size : Int) ≤ possition) (hrange : possition < 2 ^ 63) :
    device_file_read abi dry_run vpmu_base hw 0 copy_to_user dev count possition
      = some { ret := 0, possition := possition, dev := dev, hw := hw, user_copy := none,
               delivered := [], hw_trace := [], engine_words := [] } := by
  simp [device_file_read, pos_ge_size_of_le abi possition dev.buffer_size hge hrange]

theorem read_at_end_of_buffer_witness :
    ((sample_dev.buffer_size : Int) ≤ 4096 ∧ (4096 : Int) < 2 ^ 63) ∧
    device_file_read Abi.lp64 false 100 sample_hw 0 0 sample_dev 16 4096
      = some { ret := 0, possition := 4096, dev := sample_dev, hw := sample_hw,
               user_copy := none, delivered := [], hw_trace := [], engine_words := [] } :=
  ⟨⟨by decide, by norm_num⟩,
   read_at_end_of_buffer Abi.lp64 false 100 sample_hw 0 sample_dev 16 4096 (by decide)
     (by norm_num)⟩

/-- Every write that acquires the lock with the cursor at or past the end of
the buffer leaves the cursor, the device and the hardware window unchanged and
copies nothing, and the value it returns is the requested `count` converted to
`ssize_t`: the `-EINVAL` stored in `retval` is not what `return count` returns. -/
theorem write_at_end_of_buffer (abi : Abi) (dry_run : Bool) (vpmu_base : Nat) (hw : Hw)
    (copy_from_user : Nat) (user_buffer : Nat → Nat) (dev : vpmu_dev) (count : Nat)
    (possition : Int)
    (hge : (dev.buffer_size : Int) ≤ possition) (hrange : possition < 2 ^ 63) :
    device_file_write abi dry_run vpmu_base hw 0 copy_from_user user_buffer dev count possition
      = some { ret := toSsize abi (count : Int), possition := possition, dev := dev, hw := hw,
               user_copy := none, delivered := [], hw_trace := [], engine_words := [] } := by
  simp [device_file_write, pos_ge_size_of_le abi possition dev.buffer_size hge hrange]

/-- C1. On a device with a buffer of 4096 bytes, a write of 16 bytes that
acquires the lock with the cursor at 4096 returns 16, not `-EINVAL` (-22). -/
theorem write_at_end_returns_count :
    (device_file_write Abi.lp64 true 100 sample_hw 0 0 sample_user sample_dev 16 4096).map
        (fun r => (r.ret, r.possition)) = some (16, 4096) ∧
    (16 : Int) ≠ -EINVAL := by
  decide

/-- C2, as stated, fails. On `lp64`, with a buffer of 4096 bytes and the cursor
at 1, a requested count of `2 ^ 64 - 1` makes `*possition + count` wrap to 0, so the count is not
clamped: read and write pass `2 ^ 64 - 1` to `copy_to_user` and
`copy_from_user`, more than the `4096 - 1` bytes left in the buffer. -/
theorem clamp_wraps_around :
    (device_file_read Abi.lp64 true 100 sample_hw 0 0 sample_dev (2 ^ 64 - 1) 1).map
        (fun r => r.user_copy) = some (some (1, 2 ^ 64 - 1)) ∧
    (device_file_write Abi.lp64 true 100 sample_hw 0 0 sample_user sample_dev (2 ^ 64 - 1) 1).map
        (fun r => r.user_copy) = some (some (1, 2 ^ 64 - 1)) ∧
    ¬ (2 ^ 64 - 1 ≤ sample_dev.buffer_size - 1) := by
  decide

/-- C2, amended. For a cursor `c < S` and a requested count whose sum with `c`
stays below `2 ^ 64` on `lp64` (on `ilp32` every count qualifies), read and
write pass exactly `min count (S - c)` bytes,
at most `S - c`, to `copy_to_user` and `copy_from_user`, whether or not the
copy succeeds; and when `S < 2 ^ 31` this number is the value each returns on
success. -/
theorem transfer_clamped (abi : Abi) (dry_run : Bool) (vpmu_base : Nat) (hw : Hw)
    (left : Nat) (user_buffer : Nat → Nat) (dev : vpmu_dev) (buf : Buffer) (count c : Nat)
    (hdata : dev.data = some buf) (hc : c < dev.buffer_size) (hS : dev.buffer_size < abi.longMod)
    (hcount : count < abi.longMod) (hoff : c < 2 ^ 63)
    (hnowrap : abi = Abi.lp64 → c + count < 2 ^ 64) :
    ∃ r w,
      device_file_read abi dry_run vpmu_base hw 0 left dev count (c : Int) = some r ∧
      device_file_write abi dry_run vpmu_base hw 0 left user_buffer dev count (c : Int)
        = some w ∧
      r.user_copy = some ((c : Int), min count (dev.buffer_size - c)) ∧
      w.user_copy = some ((c : Int), min count (dev.buffer_size - c)) ∧
      min count (dev.buffer_size - c) ≤ dev.buffer_size - c ∧
      (dev.buffer_size < 2 ^ 31 → left = 0 →
        r.ret = ((min count (dev.buffer_size - c) : Nat) : Int) ∧
        w.ret = ((min count (dev.buffer_size - c) : Nat) : Int)) := by
  have hsum : c + count < 2 ^ 64 := by
    cases abi
    · rw [longMod_ilp32] at hS hcount; omega
    · exact hnowrap rfl
  obtain ⟨r, hr, hru, hrr⟩ :=
    read_unfold abi dry_run vpmu_base hw left dev buf count c hdata hc hS hcount hoff hsum
  obtain ⟨w, hw1, hwu, hwr⟩ := write_unfold abi dry_run vpmu_base hw left user_buffer dev buf
    count c hdata hc hS hcount hoff hsum
  refine ⟨r, w, hr, hw1, hru, hwu, Nat.min_le_right _ _, ?_⟩
  intro hS31 hl
  have hm : min count (dev.buffer_size - c) < 2 ^ 31 := by
    have := Nat.min_le_right count (dev.buffer_size - c)
    omega
  have h := ret_of_count abi _ hm
  rw [hrr hl, hwr]
  exact h

theorem transfer_clamped_witness :
    (sample_dev.data = some sample_buf ∧ 100 < sample_dev.buffer_size ∧
      sample_dev.buffer_size < Abi.lp64.longMod ∧ 8000 < Abi.lp64.longMod ∧
      100 < 2 ^ 63 ∧ (Abi.lp64 = Abi.lp64 → 100 + 8000 < 2 ^ 64)) ∧
    ∃ r w,
      device_file_read Abi.lp64 false 100 sample_hw 0 0 sample_dev 8000 ((100 : Nat) : Int)
        = some r ∧
      device_file_write Abi.lp64 false 100 sample_hw 0 0 sample_user sample_dev 8000
        ((100 : Nat) : Int) = some w ∧
      r.user_copy = some (((100 : Nat) : Int), min 8000 (sample_dev.buffer_size - 100)) ∧
      w.user_copy = some (((100 : Nat) : Int), min 8000 (sample_dev.buffer_size - 100)) ∧
      min 8000 (sample_dev.buffer_size - 100) ≤ sample_dev.buffer_size - 100 ∧
      (sample_dev.buffer_size < 2 ^ 31 → 0 = 0 →
        r.ret = ((min 8000 (sample_dev.buffer_size - 100) : Nat) : Int) ∧
        w.ret = ((min 8000 (sample_dev.buffer_size - 100) : Nat) : Int)) :=
  ⟨⟨rfl, by decide, by decide, by decide, by decide, fun _ => by decide⟩,
   transfer_clamped Abi.lp64 false 100 sample_hw 0 sample_user sample_dev sample_buf 8000 100
     rfl (by decide) (by decide) (by decide) (by decide) (fun _ => by decide)⟩

/-- C3. In simulation mode, on an opened device with buffer size `S` (below
`2 ^ 31`, the range of the `int` that carries the value read returns), with the
lock acquired and the user copies succeeding: for every cursor `c < S` and
every byte sequence `d` with `c + length d ≤ S`, writing `d` at `c` returns
`length d` and leaves the cursor at `c + length d`, and a following read of
`length d` bytes at `c` returns `length d`, stores exactly `d` into the user
buffer and leaves the cursor at `c + length d`. With `c = 0` and
`length d = S` this is the write of the whole buffer followed by its read. -/
theorem write_then_read_round_trip (abi : Abi) (vpmu_base : Nat) (hw : Hw) (dev : vpmu_dev)
    (buf : Buffer) (d : List Nat) (c : Nat)
    (hdata : dev.data = some buf) (hc : c < dev.buffer_size)
    (hn : c + d.length ≤ dev.buffer_size) (hS : dev.buffer_size < 2 ^ 31) :
    ∃ w r,
      device_file_write abi true vpmu_base hw 0 0 (fun k => d.getD k 0) dev d.length (c : Int)
        = some w ∧
      w.ret = (d.length : Int) ∧ w.possition = (c : Int) + (d.length : Int) ∧
      device_file_read abi true vpmu_base w.hw 0 0 w.dev d.length (c : Int) = some r ∧
      r.ret = (d.length : Int) ∧ r.delivered = d ∧
      r.possition = (c : Int) + (d.length : Int) := by
  have hlong : dev.buffer_size < abi.longMod := by
    cases abi
    · rw [longMod_ilp32]; omega
    · rw [longMod_lp64]; omega
  have hge := pos_ge_size_of_lt abi (c : Int) dev.buffer_size (by omega) (by omega) (by omega)
  have hcl := clamp_count_eq_min abi (c : Int) d.length dev.buffer_size (by omega) (by omega)
    hlong (by omega) (by omega)
  simp only [Int.toNat_ofNat] at hcl
  have hmin : min d.length (dev.buffer_size - c) = d.length := by omega
  rw [hmin] at hcl
  have hadv := pos_advance_eq abi (c : Int) d.length (by omega) (by omega)
  have hret := ret_of_count abi d.length (by omega)
  have hwrite : device_file_write abi true vpmu_base hw 0 0 (fun k => d.getD k 0) dev d.length
      (c : Int) = some
        { ret := toSsize abi (d.length : Int), possition := pos_advance abi (c : Int) d.length,
          dev := { dev with data := some (written_buffer buf c d.length 0 (fun k => d.getD k 0)) },
          hw := hw, user_copy := some ((c : Int), d.length), delivered := [], hw_trace := [],
          engine_words := [] } := by
    simp [device_file_write, hge, hdata, hcl, written_buffer]
  have hread : device_file_read abi true vpmu_base hw 0 0
      { dev with data := some (written_buffer buf c d.length 0 (fun k => d.getD k 0)) }
      d.length (c : Int) = some
        { ret := toSsize abi (toInt32 (d.length : Int)),
          possition := pos_advance abi (c : Int) d.length,
          dev := { dev with data := some (written_buffer buf c d.length 0 (fun k => d.getD k 0)) },
          hw := hw, user_copy := some ((c : Int), d.length),
          delivered := (List.range d.length).map
            (fun (k : Nat) => (written_buffer buf c d.length 0 (fun k => d.getD k 0)).bytes
              ((c : Int) + (k : Int))),
          hw_trace := [], engine_words := [] } := by
    simp [device_file_read, hge, hcl, written_buffer]
  refine ⟨_, ?r, hwrite, hret.2, hadv, ?h1, ?h2⟩
  case h1 => exact hread
  dsimp only
  refine ⟨hret.1, ?_, hadv⟩
  apply List.ext_getElem
  · simp
  · intro i h1 h2
    have hi : ((c : Int) + (i : Int)).toNat - c = i := by omega
    simp [written_buffer, h2, hi]

theorem write_then_read_round_trip_witness :
    (sample_dev.data = some sample_buf ∧ 10 < sample_dev.buffer_size ∧
      10 + [171, 171, 171].length ≤ sample_dev.buffer_size ∧ sample_dev.buffer_size < 2 ^ 31) ∧
    ∃ w r,
      device_file_write Abi.lp64 true 100 sample_hw 0 0 (fun k => [171, 171, 171].getD k 0)
        sample_dev [171, 171, 171].length ((10 : Nat) : Int) = some w ∧
      w.ret = ([171, 171, 171].length : Int) ∧
      w.possition = ((10 : Nat) : Int) + ([171, 171, 171].length : Int) ∧
      device_file_read Abi.lp64 true 100 w.hw 0 0 w.dev [171, 171, 171].length ((10 : Nat) : Int)
        = some r ∧
      r.ret = ([171, 171, 171].length : Int) ∧ r.delivered = [171, 171, 171] ∧
      r.possition = ((10 : Nat) : Int) + ([171, 171, 171].length : Int) :=
  ⟨⟨rfl, by decide, by decide, by decide⟩,
   write_then_read_round_trip Abi.lp64 100 sample_hw sample_dev sample_buf [171, 171, 171] 10
     rfl (by decide) (by decide) (by decide)⟩

/-! ## Open and release -/

/-- C5, as stated, fails: with one registered device, an open through an inode
that carries the driver's major number and minor 0 but another character
device returns `-ENODEV` after it has stored `&vpmu_devices[0]` in
`file_ptr->private_data`, which was `NULL` before the call. -/
theorem open_cdev_mismatch_sets_private_data :
    (device_file_open sample_globals none foreign_inode none).map
        (fun r => (r.ret, r.private_data)) = some (-ENODEV, some 0) ∧
    (some 0 : Option Nat) ≠ none := by
  decide

/-- C5, amended. An open fails with `-ENODEV` exactly when the major number is
not the driver's or the minor is not below the number of devices (first
check), or else the inode's character device is not the one of the located
device (second check). In all these cases it returns, and every global and
every device is left as it was. When the first check fails
`file_ptr->private_data` is left as it was; when the second check fails it
holds `&vpmu_devices[minor]`. -/
theorem open_nodev_frame (g : Globals) (alloc : Option Buffer) (inode : Inode)
    (private_data : Option Nat) :
    ((inode.imajor ≠ toUnsigned (2 ^ 32) g.vpmu_major_number
        ∨ toUnsigned (2 ^ 32) g.vpmu_ndevices ≤ inode.iminor) →
      device_file_open g alloc inode private_data
        = some { ret := -ENODEV, private_data := private_data, g := g }) ∧
    (¬ (inode.imajor ≠ toUnsigned (2 ^ 32) g.vpmu_major_number
        ∨ toUnsigned (2 ^ 32) g.vpmu_ndevices ≤ inode.iminor) →
      inode.i_cdev ≠ CdevPtr.vpmu inode.iminor →
      device_file_open g alloc inode private_data
        = some { ret := -ENODEV, private_data := some inode.iminor, g := g }) ∧
    (∀ r, device_file_open g alloc inode private_data = some r → r.ret = -ENODEV →
      r.g = g ∧
      ((inode.imajor ≠ toUnsigned (2 ^ 32) g.vpmu_major_number
          ∨ toUnsigned (2 ^ 32) g.vpmu_ndevices ≤ inode.iminor)
        ∨ inode.i_cdev ≠ CdevPtr.vpmu inode.iminor)) := by
  refine ⟨?_, ?_, ?_⟩
  · intro h
    have h1 : inode.imajor ≠ toUnsigned (2 ^ 32) g.vpmu_major_number ∨ (inode.iminor : Int) < 0
        ∨ toUnsigned (2 ^ 32) g.vpmu_ndevices ≤ inode.iminor := by
      rcases h with h | h
      · exact Or.inl h
      · exact Or.inr (Or.inr h)
    simp only [device_file_open, if_pos h1]
  · intro h hc
    have h1 : ¬ (inode.imajor ≠ toUnsigned (2 ^ 32) g.vpmu_major_number ∨ (inode.iminor : Int) < 0
        ∨ toUnsigned (2 ^ 32) g.vpmu_ndevices ≤ inode.iminor) := by
      rintro (h1 | h1 | h1)
      · exact h (Or.inl h1)
      · omega
      · exact h (Or.inr h1)
    simp only [device_file_open, if_neg h1, if_pos hc]
  · intro r hr hret
    by_cases h1 : inode.imajor ≠ toUnsigned (2 ^ 32) g.vpmu_major_number
        ∨ (inode.iminor : Int) < 0 ∨ toUnsigned (2 ^ 32) g.vpmu_ndevices ≤ inode.iminor
    · simp only [device_file_open, if_pos h1, Option.some.injEq] at hr
      subst hr
      refine ⟨rfl, Or.inl ?_⟩
      rcases h1 with h1 | h1 | h1
      · exact Or.inl h1
      · omega
      · exact Or.inr h1
    · by_cases hc : inode.i_cdev ≠ CdevPtr.vpmu inode.iminor
      · simp only [device_file_open, if_neg h1, if_pos hc, Option.some.injEq] at hr
        subst hr
        exact ⟨rfl, Or.inr hc⟩
      · exfalso
        simp only [device_file_open, if_neg h1, if_neg hc] at hr
        cases hd : g.vpmu_devices with
        | none => simp [hd] at hr
        | some devs =>
          simp only [hd] at hr
          cases hg : devs[inode.iminor]? with
          | none => simp [hg] at hr
          | some dev =>
            simp only [hg] at hr
            cases hdata : dev.data with
            | some b =>
              simp only [hdata, Option.some.injEq] at hr
              subst hr
              simp [ENODEV] at hret
            | none =>
              simp only [hdata] at hr
              cases hk : kzalloc dev.buffer_size alloc with
              | none =>
                simp only [hk, Option.some.injEq] at hr
                subst hr
                simp [ENODEV, ENOMEM] at hret
              | some b =>
                simp only [hk, Option.some.injEq] at hr
                subst hr
                simp [ENODEV] at hret

theorem open_nodev_frame_witness :
    (minor5_inode.imajor ≠ toUnsigned (2 ^ 32) sample_globals.vpmu_major_number
      ∨ toUnsigned (2 ^ 32) sample_globals.vpmu_ndevices ≤ minor5_inode.iminor) ∧
    device_file_open sample_globals none minor5_inode none
      = some { ret := -ENODEV, private_data := none, g := sample_globals } :=
  ⟨Or.inr (by decide),
   (open_nodev_frame sample_globals none minor5_inode none).1 (Or.inr (by decide))⟩

theorem open_of_allocated (g : Globals) (alloc : Option Buffer) (inode : Inode)
    (private_data : Option Nat) (devs : List vpmu_dev) (dev : vpmu_dev) (buf : Buffer)
    (hdevs : g.vpmu_devices = some devs) (hdev : devs[inode.iminor]? = some dev)
    (hbuf : dev.data = some buf) :
    ((inode.imajor ≠ toUnsigned (2 ^ 32) g.vpmu_major_number
          ∨ toUnsigned (2 ^ 32) g.vpmu_ndevices ≤ inode.iminor
          ∨ inode.i_cdev ≠ CdevPtr.vpmu inode.iminor)
        ∧ ∃ pd, device_file_open g alloc inode private_data
          = some { ret := -ENODEV, private_data := pd, g := g })
      ∨ (inode.imajor = toUnsigned (2 ^ 32) g.vpmu_major_number
          ∧ inode.iminor < toUnsigned (2 ^ 32) g.vpmu_ndevices
          ∧ inode.i_cdev = CdevPtr.vpmu inode.iminor
          ∧ device_file_open g alloc inode private_data
            = some { ret := 0, private_data := some inode.iminor, g := g }) := by
  by_cases h1 : inode.imajor ≠ toUnsigned (2 ^ 32) g.vpmu_major_number
      ∨ (inode.iminor : Int) < 0 ∨ toUnsigned (2 ^ 32) g.vpmu_ndevices ≤ inode.iminor
  · left
    refine ⟨?_, private_data, by simp only [device_file_open, if_pos h1]⟩
    rcases h1 with h1 | h1 | h1
    · exact Or.inl h1
    · omega
    · exact Or.inr (Or.inl h1)
  · by_cases hc : inode.i_cdev ≠ CdevPtr.vpmu inode.iminor
    · left
      exact ⟨Or.inr (Or.inr hc), some inode.iminor,
        by simp only [device_file_open, if_neg h1, if_pos hc]⟩
    · right
      have h2 : inode.imajor = toUnsigned (2 ^ 32) g.vpmu_major_number := by
        by_contra h; exact h1 (Or.inl h)
      have h3 : inode.iminor < toUnsigned (2 ^ 32) g.vpmu_ndevices := by
        by_contra h; exact h1 (Or.inr (Or.inr (by omega)))
      have h4 : inode.i_cdev = CdevPtr.vpmu inode.iminor := by
        by_contra h; exact hc h
      refine ⟨h2, h3, h4, ?_⟩
      simp only [device_file_open, if_neg h1, if_neg hc, hdevs, hdev, hbuf]

theorem read_dry_delivers (abi : Abi) (vpmu_base : Nat) (hw : Hw) (dev : vpmu_dev)
    (buf : Buffer) (n c : Nat)
    (hdata : dev.data = some buf) (hc : c < dev.buffer_size)
    (hn : c + n ≤ dev.buffer_size) (hS : dev.buffer_size < 2 ^ 31) :
    ∃ r, device_file_read abi true vpmu_base hw 0 0 dev n (c : Int) = some r ∧
      r.ret = (n : Int) ∧
      r.delivered = (List.range n).map (fun (k : Nat) => buf.bytes ((c : Int) + (k : Int))) := by
  have hlong : dev.buffer_size < abi.longMod := by
    cases abi
    · rw [longMod_ilp32]; omega
    · rw [longMod_lp64]; omega
  have hge := pos_ge_size_of_lt abi (c : Int) dev.buffer_size (by omega) (by omega) (by omega)
  have hcl := clamp_count_eq_min abi (c : Int) n dev.buffer_size (by omega) (by omega)
    hlong (by omega) (by omega)
  simp only [Int.toNat_ofNat] at hcl
  have hmin : min n (dev.buffer_size - c) = n := by omega
  rw [hmin] at hcl
  have hret := ret_of_count abi n (by omega)
  have hread : device_file_read abi true vpmu_base hw 0 0 dev n (c : Int) = some
      { ret := toSsize abi (toInt32 (n : Int)), possition := pos_advance abi (c : Int) n,
        dev := { dev with data := some { addr := buf.addr, bytes := buf.bytes } },
        hw := hw, user_copy := some ((c : Int), n),
        delivered := (List.range n).map (fun (k : Nat) => buf.bytes ((c : Int) + (k : Int))),
        hw_trace := [], engine_words := [] } := by
    simp [device_file_read, hge, hdata, hcl]
  refine ⟨_, hread, ?_, ?_⟩
  · dsimp only
    exact hret.1
  · rfl

/-- C6. For a device whose buffer is allocated: every successful open leaves
all globals and devices exactly as they were (the allocator is not consulted,
the buffer keeps its address, size and contents) and binds the handle to that
same device; the open succeeds whenever its two checks pass; release returns 0
and changes nothing, so a release in between makes no difference; and in
simulation mode (buffer size below `2 ^ 31`) a read through the reopened handle
returns the bytes the buffer held before the reopen. -/
theorem reopen_keeps_buffer (g : Globals) (alloc : Option Buffer) (inode : Inode)
    (private_data : Option Nat) (devs : List vpmu_dev) (dev : vpmu_dev) (buf : Buffer)
    (hdevs : g.vpmu_devices = some devs) (hdev : devs[inode.iminor]? = some dev)
    (hbuf : dev.data = some buf) :
    (∀ r, device_file_open g alloc inode private_data = some r → r.ret = 0 →
      r.g = g ∧ r.private_data = some inode.iminor ∧
      bound_device r.g r.private_data = some dev) ∧
    (inode.imajor = toUnsigned (2 ^ 32) g.vpmu_major_number →
      inode.iminor < toUnsigned (2 ^ 32) g.vpmu_ndevices →
      inode.i_cdev = CdevPtr.vpmu inode.iminor →
      device_file_open g alloc inode private_data
        = some { ret := 0, private_data := some inode.iminor, g := g }) ∧
    (∀ pd, device_file_release g pd = (0, g, pd) ∧
      device_file_open (device_file_release g pd).2.1 alloc inode private_data
        = device_file_open g alloc inode private_data) ∧
    (∀ (abi : Abi) (vpmu_base : Nat) (hw : Hw) (n c : Nat),
      c < dev.buffer_size → c + n ≤ dev.buffer_size → dev.buffer_size < 2 ^ 31 →
      ∃ r, device_file_read abi true vpmu_base hw 0 0 dev n (c : Int) = some r ∧
        r.ret = (n : Int) ∧
        r.delivered = (List.range n).map (fun (k : Nat) => buf.bytes ((c : Int) + (k : Int)))) := by
  have hcases := open_of_allocated g alloc inode private_data devs dev buf hdevs hdev hbuf
  have hbound : bound_device g (some inode.iminor) = some dev := by
    simp only [bound_device, hdevs, hdev]
  refine ⟨?_, ?_, ?_, ?_⟩
  · intro r hr hret
    rcases hcases with ⟨_, pd, h⟩ | ⟨_, _, _, h⟩
    · rw [h] at hr
      simp only [Option.some.injEq] at hr
      subst hr
      simp [ENODEV] at hret
    · rw [h] at hr
      simp only [Option.some.injEq] at hr
      subst hr
      exact ⟨rfl, rfl, hbound⟩
  · intro h2 h3 h4
    rcases hcases with ⟨hbad, _⟩ | ⟨_, _, _, h⟩
    · exfalso
      rcases hbad with hb | hb | hb
      · exact hb h2
      · omega
      · exact hb h4
    · exact h
  · intro pd
    exact ⟨rfl, rfl⟩
  · intro abi vpmu_base hw n c hc hn hS
    exact read_dry_delivers abi vpmu_base hw dev buf n c hbuf hc hn hS

theorem reopen_keeps_buffer_witness :
    (sample_globals.vpmu_devices = some [sample_dev] ∧
      [sample_dev][sample_inode.iminor]? = some sample_dev ∧
      sample_dev.data = some sample_buf) ∧
    device_file_open sample_globals none sample_inode (some 0)
      = some { ret := 0, private_data := some sample_inode.iminor, g := sample_globals } :=
  ⟨⟨rfl, rfl, rfl⟩,
   (reopen_keeps_buffer sample_globals none sample_inode (some 0) [sample_dev] sample_dev
     sample_buf rfl rfl rfl).2.1 (by decide) (by decide) (by decide)⟩

/-! ## Registration -/

/-- With a device count that is not positive `register_device` returns
`-EINVAL`, makes no call and changes no global. -/
theorem register_device_invalid_count (iomem_size : Nat) (g : Globals)
    (alloc_chrdev_region major : Int) (class_create : KPtr) (kzalloc_devices : Bool)
    (cdev_add : Nat → Int) (device_create : Nat → KPtr) (h : g.vpmu_ndevices ≤ 0) :
    register_device iomem_size g alloc_chrdev_region major class_create kzalloc_devices
      cdev_add device_create = { ret := -EINVAL, g := g, log := [] } := by
  simp only [register_device, if_pos h]

/-- Once `alloc_chrdev_region` has succeeded, `register_device` returns 0 on
every path: the success path and the three paths through the label `fail`. -/
theorem register_device_returns_zero (iomem_size : Nat) (g : Globals)
    (alloc_chrdev_region major : Int) (class_create : KPtr) (kzalloc_devices : Bool)
    (cdev_add : Nat → Int) (device_create : Nat → KPtr)
    (hn : 0 < g.vpmu_ndevices) (hreg : 0 ≤ alloc_chrdev_region) :
    (register_device iomem_size g alloc_chrdev_region major class_create kzalloc_devices
      cdev_add device_create).ret = 0 := by
  have h1 : ¬ g.vpmu_ndevices ≤ 0 := by omega
  have h2 : ¬ alloc_chrdev_region < 0 := by omega
  simp only [register_device, if_neg h1, if_neg h2]
  cases class_create <;> cases kzalloc_devices <;> simp only [] <;> split_ifs <;> rfl

/-- C7. With one device to register, `register_device` returns 0, the success
code, when `class_create` fails with `-ENOMEM` (-12), when the allocation of
the device array fails, and when `cdev_add` fails with `-EBUSY` (-16) in the
construction of device 0; in each case the teardown has run. -/
theorem register_failure_returns_success :
    (run_class_create_fails.ret, run_class_create_fails.log)
      = (0, [RegEvent.class_destroy, RegEvent.unregister_chrdev_region]) ∧
    (run_array_alloc_fails.ret, run_array_alloc_fails.log)
      = (0, [RegEvent.class_destroy, RegEvent.unregister_chrdev_region]) ∧
    (run_cdev_add_fails.ret, run_cdev_add_fails.log)
      = (0, [RegEvent.construct 0 0, RegEvent.kfree_devices, RegEvent.class_destroy,
          RegEvent.unregister_chrdev_region]) ∧
    (0 : Int) ≠ -12 ∧ (0 : Int) ≠ -ENOMEM ∧ (0 : Int) ≠ -16 := by
  decide

/-- C8. With two devices to register and every external call succeeding,
`register_device` returns 0 after two calls
`vpmu_construct_device(&vpmu_devices[0], 0, vpmu_class)`: device 0 is
constructed twice with minor 0, and device 1 is never constructed: its
`buffer_size` is 0, not the hardware-region size 4096, and its lock is not
initialised. -/
theorem register_constructs_only_device_zero :
    run_two_devices.ret = 0 ∧
    run_two_devices.log = [RegEvent.construct 0 0, RegEvent.construct 0 0] ∧
    devices_summary run_two_devices.g
      = [(4096, true, some 0, false), (0, false, none, false)] := by
  decide

/-! ## Word transfer engine -/

/-- After `k` iterations the loop of `copy_from_vpmu` has issued `k` reads, the
`i`-th with the address argument `addr_base + i`, has stored the word read by
the `i`-th into `buffer[i]`, and has left the hardware window and every
`buffer[i]` with `k ≤ i` unchanged. -/
theorem copy_from_vpmu_loop_spec (abi : Abi) (addr_base : Nat) (s : XferState) (k : Nat) :
    (copy_from_vpmu_loop abi addr_base k s).hw = s.hw ∧
    (copy_from_vpmu_loop abi addr_base k s).trace
      = s.trace ++ (List.range k).map (fun i => Access.read ((addr_base + i) % abi.longMod)) ∧
    (∀ i, i < k → (copy_from_vpmu_loop abi addr_base k s).buffer i
      = VPMU_IO_READ s.hw ((addr_base + i) % abi.longMod)) ∧
    (∀ i, k ≤ i → (copy_from_vpmu_loop abi addr_base k s).buffer i = s.buffer i) := by
  induction k with
  | zero => simp [copy_from_vpmu_loop]
  | succ k ih =>
    obtain ⟨ih1, ih2, ih3, ih4⟩ := ih
    refine ⟨?_, ?_, ?_, ?_⟩
    · simp only [copy_from_vpmu_loop, copy_from_vpmu_body, ih1]
    · simp only [copy_from_vpmu_loop, copy_from_vpmu_body, ih2, List.range_succ, List.map_append,
        List.map_cons, List.map_nil, List.append_assoc]
    · intro i hi
      simp only [copy_from_vpmu_loop, copy_from_vpmu_body]
      by_cases hik : i = k
      · simp [hik, ih1]
      · rw [if_neg hik]
        exact ih3 i (by omega)
    · intro i hi
      simp only [copy_from_vpmu_loop, copy_from_vpmu_body]
      rw [if_neg (by omega)]
      exact ih4 i (by omega)

/-- The function `copy_from_vpmu(buffer, addr_base, count)` issues exactly
`count / W` reads, the `i`-th with the address argument `addr_base + i`, stores
the `i`-th word read into `buffer[i]`, and leaves the hardware window and the
words `buffer[i]` with `count / W ≤ i` unchanged. -/
theorem copy_from_vpmu_spec (abi : Abi) (addr_base count : Nat) (s : XferState) :
    (copy_from_vpmu abi addr_base count s).hw = s.hw ∧
    (copy_from_vpmu abi addr_base count s).trace
      = s.trace ++ (List.range (count / abi.wordBytes)).map
          (fun i => Access.read ((addr_base + i) % abi.longMod)) ∧
    (∀ i, i < count / abi.wordBytes → (copy_from_vpmu abi addr_base count s).buffer i
      = VPMU_IO_READ s.hw ((addr_base + i) % abi.longMod)) ∧
    (∀ i, count / abi.wordBytes ≤ i →
      (copy_from_vpmu abi addr_base count s).buffer i = s.buffer i) :=
  copy_from_vpmu_loop_spec abi addr_base s (count / abi.wordBytes)

/-- After `k` iterations the loop of `copy_to_vpmu` has issued `k` writes, the
`i`-th of `buffer[i]` with the address argument `addr_base + i`, and has left
the buffer unchanged. -/
theorem copy_to_vpmu_loop_spec (abi : Abi) (addr_base : Nat) (s : XferState) (k : Nat) :
    (copy_to_vpmu_loop abi addr_base k s).buffer = s.buffer ∧
    (copy_to_vpmu_loop abi addr_base k s).trace
      = s.trace ++ (List.range k).map
          (fun i => Access.write ((addr_base + i) % abi.longMod) (s.buffer i)) := by
  induction k with
  | zero => simp [copy_to_vpmu_loop]
  | succ k ih =>
    obtain ⟨ih1, ih2⟩ := ih
    refine ⟨?_, ?_⟩
    · simp only [copy_to_vpmu_loop, copy_to_vpmu_body, ih1]
    · simp only [copy_to_vpmu_loop, copy_to_vpmu_body, ih1, ih2, List.range_succ,
        List.map_append, List.map_cons, List.map_nil, List.append_assoc]

/-- The function `copy_to_vpmu(addr_base, buffer, count)` issues exactly
`count / W` writes, the `i`-th of `buffer[i]` with the address argument
`addr_base + i`, and never modifies the buffer. -/
theorem copy_to_vpmu_spec (abi : Abi) (addr_base count : Nat) (s : XferState) :
    (copy_to_vpmu abi addr_base count s).buffer = s.buffer ∧
    (copy_to_vpmu abi addr_base count s).trace
      = s.trace ++ (List.range (count / abi.wordBytes)).map
          (fun i => Access.write ((addr_base + i) % abi.longMod) (s.buffer i)) :=
  copy_to_vpmu_loop_spec abi addr_base s (count / abi.wordBytes)

/-- C10. On `lp64` (`W = 8`), `copy_from_vpmu(buffer, 4096, 16)` issues its two
reads at the addresses 4096 and 4097, and `copy_to_vpmu(4096, buffer, 16)` its
two writes at 4096 and 4097: the second access is one address unit after the
base, while word 1 of the window lies at 4096 + 8 = 4104. -/
theorem engine_advances_by_one_not_by_word :
    run_copy_from.trace = [Access.read 4096, Access.read 4097] ∧
    run_copy_to.trace = [Access.write 4096 10, Access.write 4097 11] ∧
    word_offset Abi.lp64 4096 1 = 4104 ∧ (4097 : Nat) ≠ 4104 := by
  decide

/-! ## The hardware push of write -/

/-- In hardware mode, a successful write at cursor `c` that accepts
`n = min count (S - c)` bytes hands `copy_to_vpmu` the pointer
`dev->data + (c + n)`: the buffer words the push reads start at the advanced
cursor `c + n`, not at `c`. -/
theorem write_push_offsets (abi : Abi) (vpmu_base : Nat) (hw : Hw)
    (user_buffer : Nat → Nat) (dev : vpmu_dev) (buf : Buffer) (count c : Nat)
    (hdata : dev.data = some buf) (hc : c < dev.buffer_size) (hS : dev.buffer_size < 2 ^ 31)
    (hcount : count < abi.longMod) (hnowrap : c + count < 2 ^ 64) :
    ∃ w, device_file_write abi false vpmu_base hw 0 0 user_buffer dev count (c : Int) = some w ∧
      w.engine_words = word_offsets abi
        ((c : Int) + ((min count (dev.buffer_size - c) : Nat) : Int))
        (min count (dev.buffer_size - c) / abi.wordBytes) := by
  have hlong : dev.buffer_size < abi.longMod := by
    cases abi
    · rw [longMod_ilp32]; omega
    · rw [longMod_lp64]; omega
  have hge := pos_ge_size_of_lt abi (c : Int) dev.buffer_size (by omega) (by omega) (by omega)
  have hcl := clamp_count_eq_min abi (c : Int) count dev.buffer_size (by omega) (by omega)
    hlong hcount (by exact_mod_cast hnowrap)
  simp only [Int.toNat_ofNat] at hcl
  have hadv := pos_advance_eq abi (c : Int) (min count (dev.buffer_size - c)) (by omega)
    (by have := Nat.min_le_right count (dev.buffer_size - c); omega)
  simp [device_file_write, hge, hdata, hcl, hadv]

/-- C9. On `lp64` in hardware mode, a write of 16 bytes at cursor 4080 of a
buffer of 4096 bytes succeeds (returns 16, cursor 4096) and then pushes the two
words at the byte offsets 4096 and 4104 of `dev->data`, both outside the
buffer, whose contents (bytes 7) are what reaches the hardware; the window just
written is the two words at the offsets 4080 and 4088, which hold the user's
bytes 0 .. 15. -/
theorem write_pushes_from_advanced_cursor :
    run_hw_write.map (fun r => (r.ret, r.possition)) = some (16, 4096) ∧
    run_hw_write.map (fun r => r.engine_words) = some [4096, 4104] ∧
    run_hw_write.map (fun r => r.hw_trace)
      = some [Access.write 100 506381209866536711, Access.write 101 506381209866536711] ∧
    run_hw_write.map (fun r => r.dev.data.map
        (fun b => [load_word Abi.lp64 b.bytes 4080 0, load_word Abi.lp64 b.bytes 4080 1]))
      = some (some [506097522914230528, 1084818905618843912]) ∧
    word_offsets Abi.lp64 4080 2 = [4080, 4088] ∧
    ¬ ((4096 : Int) < (sample_dev.buffer_size : Int)) := by
  decide

end VpmuDriver
